import Mathlib

/-!
Verification of the BelgaLogos keypoint-matching detector core
(`lib/model.py`, `lib/validation.py`, `keypoint_matching.py`).

The source's geometric data is embedded over unbounded integers (pixel
coordinates are small `int32` values in the source, far from overflow, and
ground-truth coordinates are arbitrary-precision Python ints).  The float
thresholds `0.5 * area` and `0.2 * area` are embedded exactly as the integer
comparisons `2 * overlap > area` and `5 * overlap > area`.  External OpenCV /
sklearn capabilities (feature finder, brute-force matcher, homography
estimator, mean-shift labelling, perspective warp) are parameters of the
embedded functions; fallible Python code (exceptions) returns `Except`.
-/

/-- An axis-aligned bounding box `[x1, y1, x2, y2]` as used throughout
`lib/validation.py`. -/
structure AABB where
  x1 : Int
  y1 : Int
  x2 : Int
  y2 : Int
deriving DecidableEq, Repr

/-- A detection quadrilateral: the four warped template corners
(`np.int32` vertices, in fixed order) returned by `build_bounding_box`. -/
structure Quad where
  v0 : Int × Int
  v1 : Int × Int
  v2 : Int × Int
  v3 : Int × Int
deriving DecidableEq, Repr

/-- A BelgaLogos ground-truth metadata row (fields `brand`, `image_file`,
`bbx1`, `bby1`, `bbx2`, `bby2`), as consumed by `lib/validation.py`. -/
structure MetaRow where
  brand : String
  image_file : String
  bbx1 : Int
  bby1 : Int
  bbx2 : Int
  bby2 : Int
deriving DecidableEq, Repr

/-- `validation.metadata_to_AABB`: the AABB of a metadata row. -/
def metadata_to_AABB (md : MetaRow) : AABB :=
  ⟨md.bbx1, md.bby1, md.bbx2, md.bby2⟩

/-- `validation.vertices_to_AABB`: componentwise min/max of the four quad
vertices (`np.min` / `np.max` over axis 0). -/
def vertices_to_AABB (q : Quad) : AABB :=
  { x1 := min (min q.v0.1 q.v1.1) (min q.v2.1 q.v3.1)
    y1 := min (min q.v0.2 q.v1.2) (min q.v2.2 q.v3.2)
    x2 := max (max q.v0.1 q.v1.1) (max q.v2.1 q.v3.1)
    y2 := max (max q.v0.2 q.v1.2) (max q.v2.2 q.v3.2) }

/-- `validation.compute_rectangle_area`: `(r[2] - r[0]) * (r[3] - r[1])`. -/
def compute_rectangle_area (r : AABB) : Int :=
  (r.x2 - r.x1) * (r.y2 - r.y1)

/-- `validation.compute_rectangle_intersection`:
`max(0, min(r1[2], r2[2]) - max(r1[0], r2[0])) * max(0, min(r1[3], r2[3]) - max(r1[1], r2[1]))`. -/
def compute_rectangle_intersection (r1 r2 : AABB) : Int :=
  let olx := max 0 (min r1.x2 r2.x2 - max r1.x1 r2.x1)
  let oly := max 0 (min r1.y2 r2.y2 - max r1.y1 r2.y1)
  olx * oly

/-- A detected object (`DetectedObject` namedtuple in `lib/model.py`):
a label and a detection quadrilateral. -/
structure DetectedObject where
  label : String
  bounding_box : Quad
deriving DecidableEq, Repr

/-- `validation.validate_detected_objects`: one boolean per detection, set by
scanning the same-brand metadata rows for an intersection exceeding 20% of the
detection's AABB area (`overlap > 0.2 * detected_area`, embedded exactly as
`5 * overlap > detected_area`). -/
def validate_detected_objects (metadata : List MetaRow)
    (detected_objects : List DetectedObject) : List Bool :=
  detected_objects.map fun iobject =>
    let detected := vertices_to_AABB iobject.bounding_box
    let detected_area := compute_rectangle_area detected
    let true_labels := metadata.filter fun md => md.brand == iobject.label
    true_labels.any fun row =>
      decide (5 * compute_rectangle_intersection detected (metadata_to_AABB row) >
        detected_area)

/-- `KeypointMatcher.verify_non_overlapping` (`lib/model.py`): a candidate is
accepted iff no previously accepted object's AABB meets it with
`overlap > 0.5 * area2` where `area2` is the prior object's AABB area
(embedded exactly as `2 * overlap > area2`). -/
def verify_non_overlapping (detected_objects : List DetectedObject)
    (new_object : DetectedObject) : Bool :=
  let AABB1 := vertices_to_AABB new_object.bounding_box
  detected_objects.all fun iobject =>
    let AABB2 := vertices_to_AABB iobject.bounding_box
    decide (2 * compute_rectangle_intersection AABB1 AABB2 ≤
      compute_rectangle_area AABB2)

/-- C10 — `compute_rectangle_intersection` is symmetric in its two rectangles
and always nonnegative: the order-sensitivity of dedup/validation can only
come from the choice of area denominator. -/
theorem compute_rectangle_intersection_symm_nonneg (r1 r2 : AABB) :
    compute_rectangle_intersection r1 r2 = compute_rectangle_intersection r2 r1 ∧
    0 ≤ compute_rectangle_intersection r1 r2 := by
  constructor
  · simp only [compute_rectangle_intersection]
    rw [min_comm r1.x2 r2.x2, max_comm r1.x1 r2.x1,
      min_comm r1.y2 r2.y2, max_comm r1.y1 r2.y1]
  · exact mul_nonneg (le_max_left 0 _) (le_max_left 0 _)

/-- A quadrilateral whose AABB is the given rectangle (used to build concrete
detections in scenario checks). -/
def rectQuad (x1 y1 x2 y2 : Int) : Quad :=
  ⟨(x1, y1), (x1, y2), (x2, y2), (x2, y1)⟩

/-- C2 — `validate_detected_objects` returns one boolean per detection in
input order; a detection is `true` iff some metadata row of the same brand
has an AABB whose intersection with the detection's AABB exceeds 20% of the
detection's AABB area.  Moreover, for a detection with AABB `[0,0,100,100]`,
a same-brand ground-truth AABB `[50,50,150,150]` yields `[true]` and
`[90,90,150,150]` yields `[false]`. -/
theorem validate_detected_objects_spec (metadata : List MetaRow)
    (detected_objects : List DetectedObject) :
    validate_detected_objects metadata detected_objects =
      detected_objects.map (fun o =>
        decide (∃ row ∈ metadata, row.brand = o.label ∧
          5 * compute_rectangle_intersection (vertices_to_AABB o.bounding_box)
              (metadata_to_AABB row) >
            compute_rectangle_area (vertices_to_AABB o.bounding_box))) ∧
    validate_detected_objects [⟨"b", "img", 50, 50, 150, 150⟩]
      [⟨"b", rectQuad 0 0 100 100⟩] = [true] ∧
    validate_detected_objects [⟨"b", "img", 90, 90, 150, 150⟩]
      [⟨"b", rectQuad 0 0 100 100⟩] = [false] := by
  refine ⟨?_, by decide, by decide⟩
  unfold validate_detected_objects
  refine List.map_congr_left fun o _ => ?_
  simp only [List.any_filter, List.any_eq_true, decide_eq_true_eq]
  rcases h : decide (∃ row ∈ metadata, row.brand = o.label ∧
      5 * compute_rectangle_intersection (vertices_to_AABB o.bounding_box)
        (metadata_to_AABB row) > compute_rectangle_area (vertices_to_AABB o.bounding_box)) with _ | _
  · rw [decide_eq_false_iff_not] at h
    rw [List.any_eq_false]
    intro row hrow
    simp only [Bool.and_eq_true, beq_iff_eq, decide_eq_true_eq, not_and]
    intro hb
    intro hover
    exact h ⟨row, hrow, hb, hover⟩
  · rw [decide_eq_true_eq] at h
    obtain ⟨row, hrow, hb, hover⟩ := h
    rw [List.any_eq_true]
    exact ⟨row, hrow, by simp [hb, hover]⟩

/-- An image shape (`img.shape` rows/cols), as used by `build_bounding_box`
to read off the template corners. -/
structure Image where
  rows : Nat
  cols : Nat
deriving DecidableEq, Repr

/-- The `KeypointSet` namedtuple of `keypoint_matching.py`: an image together
with index-aligned keypoints and descriptors.  Keypoint and descriptor
payloads are abstract (`K`, `D`). -/
structure KeypointSet (K D : Type) where
  image : Image
  keypoints : List K
  descriptors : List D

/-- An OpenCV `DMatch`: indices into the query (template) and train (test)
keypoint sets. -/
structure MatchPair where
  queryIdx : Nat
  trainIdx : Nat
deriving DecidableEq, Repr

/-- `keypoint_matching.build_bounding_box`.  `findHomography` embeds
`cv2.findHomography(..., cv2.RANSAC, 2)`: an optional transform plus an
inlier mask (OpenCV fills the mask, all zeros on failure).  `warp` embeds
`cv2.perspectiveTransform` followed by the `np.int32` truncation.  The
inlier check runs before the `M is None` check, as in the source. -/
def build_bounding_box {P H : Type}
    (findHomography : List P → List P → Option H × List Bool)
    (warp : H → Int × Int → Int × Int) (img1 : Image)
    (src_pts dst_pts : List P) (MIN_INLIERS : Option Nat) : Option Quad :=
  let Mm := findHomography src_pts dst_pts
  let inliers_ok :=
    match MIN_INLIERS with
    | none => true
    | some t => decide (t ≤ Mm.2.count true)
  if inliers_ok then
    match Mm.1 with
    | none => none
    | some m =>
      let hh : Int := (img1.rows : Int)
      let ww : Int := (img1.cols : Int)
      some ⟨warp m (0, 0), warp m (0, hh - 1), warp m (ww - 1, hh - 1),
        warp m (ww - 1, 0)⟩
  else none

/-- `keypoint_matching.get_matching_boundingbox`: run the brute-force
`matcher` on the two descriptor sets; with at least `MIN_MATCHES` matches,
gather the matched keypoint locations (`pt`; `kp0` stands in for the
out-of-range default that cannot occur for a well-formed matcher) and defer
to `build_bounding_box`; otherwise report no match. -/
def get_matching_boundingbox {K D P H : Type}
    (matcher : List D → List D → List MatchPair)
    (findHomography : List P → List P → Option H × List Bool)
    (warp : H → Int × Int → Int × Int) (pt : K → P) (kp0 : K)
    (template test : KeypointSet K D) (MIN_MATCHES : Nat)
    (MIN_INLIERS : Option Nat) : Option Quad :=
  let found := matcher template.descriptors test.descriptors
  if MIN_MATCHES ≤ found.length then
    let src_pts := found.map fun m => pt ((template.keypoints.get? m.queryIdx).getD kp0)
    let dst_pts := found.map fun m => pt ((test.keypoints.get? m.trainIdx).getD kp0)
    build_bounding_box findHomography warp template.image src_pts dst_pts MIN_INLIERS
  else none

/-- `keypoint_matching.meanshift_keypoint_labels`, with the sklearn
mean-shift labelling modelled as the external total function `msLabels`
(`cluster_all=True`: one nonnegative label per input point).  The source
computes `max(ms.labels_) + 1`; Python's `max` raises on an empty sequence
(sklearn's `estimate_bandwidth` already rejects an empty point list, so an
empty keypoint set errors either way). -/
def meanshift_keypoint_labels {K P : Type} (msLabels : List P → List Nat)
    (pt : K → P) (keypoints : List K) : Except String (List Nat × Nat) :=
  let point_locations := keypoints.map pt
  match msLabels point_locations with
  | [] => Except.error "max() arg is an empty sequence"
  | l :: ls => Except.ok (l :: ls, ls.foldl Nat.max l + 1)

/-- `np.where(labels == i)`: the indices (in increasing order) whose label
equals `i`. -/
def clusterIndices (labels : List Nat) (i : Nat) : List Nat :=
  (List.range labels.length).filter fun j => labels.getD j 0 == i

/-- Numpy fancy indexing `xs[d]` for an index list `d`. -/
def select {α : Type} (xs : List α) (idxs : List Nat) : List α :=
  idxs.filterMap xs.get?

/-- `keypoint_matching.meanshift_keypoint_clusters`: label the keypoints,
then for each cluster index select the keypoints and descriptors whose label
matches, preserving the original order. -/
def meanshift_keypoint_clusters {K D P : Type} (msLabels : List P → List Nat)
    (pt : K → P) (keypoints : List K) (descriptors : List D) :
    Except String (List (List K) × List (List D)) := do
  let (labels, nclusters) ← meanshift_keypoint_labels msLabels pt keypoints
  let kp_clusters := (List.range nclusters).map fun i =>
    select keypoints (clusterIndices labels i)
  let ds_clusters := (List.range nclusters).map fun i =>
    select descriptors (clusterIndices labels i)
  Except.ok (kp_clusters, ds_clusters)

/-- The inner template loop of `KeypointMatcher.detect_objects`: try each
registered (template, label) pair in order with `MIN_MATCHES=10`,
`MIN_INLIERS=10`; the first bounding box that passes
`verify_non_overlapping` is returned (the `break`); a rejected or absent
bounding box moves on to the next template. -/
def detect_cluster_templates {K D P H : Type}
    (matcher : List D → List D → List MatchPair)
    (findHomography : List P → List P → Option H × List Bool)
    (warp : H → Int × Int → Int × Int) (pt : K → P) (kp0 : K)
    (detected_objects : List DetectedObject) (cluster : KeypointSet K D) :
    List (KeypointSet K D × String) → Option DetectedObject
  | [] => none
  | (template, label) :: rest =>
    match get_matching_boundingbox matcher findHomography warp pt kp0 template
        cluster 10 (some 10) with
    | none => detect_cluster_templates matcher findHomography warp pt kp0
        detected_objects cluster rest
    | some bb =>
      let new_object : DetectedObject := ⟨label, bb⟩
      if verify_non_overlapping detected_objects new_object then some new_object
      else detect_cluster_templates matcher findHomography warp pt kp0
        detected_objects cluster rest

/-- `KeypointMatcher.detect_objects`: cluster the target image's keypoints,
then fold over clusters in order, appending the first accepted detection of
each cluster (clustering errors propagate). -/
def detect_objects {K D P H : Type} (msLabels : List P → List Nat)
    (matcher : List D → List D → List MatchPair)
    (findHomography : List P → List P → Option H × List Bool)
    (warp : H → Int × Int → Int × Int) (pt : K → P) (kp0 : K)
    (templates : List (KeypointSet K D)) (lbls : List String)
    (target_image : Image) (targetKP : List K) (targetDS : List D) :
    Except String (List DetectedObject) := do
  let (kp_clusters, ds_clusters) ← meanshift_keypoint_clusters msLabels pt targetKP targetDS
  Except.ok ((kp_clusters.zip ds_clusters).foldl
    (fun detected_objects kd =>
      let cluster : KeypointSet K D := ⟨target_image, kd.1, kd.2⟩
      match detect_cluster_templates matcher findHomography warp pt kp0
          detected_objects cluster (templates.zip lbls) with
      | some o => detected_objects ++ [o]
      | none => detected_objects) [])

/-- If the estimator returns no transform, `build_bounding_box` reports no
match, whatever the mask and `MIN_INLIERS` say. -/
theorem build_bounding_box_none_of_no_homography {P H : Type}
    (findHomography : List P → List P → Option H × List Bool)
    (warp : H → Int × Int → Int × Int) (img1 : Image)
    (src_pts dst_pts : List P) (MIN_INLIERS : Option Nat)
    (hM : (findHomography src_pts dst_pts).1 = none) :
    build_bounding_box findHomography warp img1 src_pts dst_pts MIN_INLIERS = none := by
  simp only [build_bounding_box, hM]
  cases MIN_INLIERS <;> simp

/-- C6 — whenever the robust homography estimator finds no transform,
`build_bounding_box` and `get_matching_boundingbox` report no match (for
every inlier mask and every `MIN_INLIERS` setting, specified or not): the
inlier-count threshold can only be decisive once a homography exists. -/
theorem no_homography_reports_no_match {K D P H : Type}
    (findHomography : List P → List P → Option H × List Bool)
    (hM : ∀ s d, (findHomography s d).1 = none)
    (warp : H → Int × Int → Int × Int) (img1 : Image)
    (src_pts dst_pts : List P) (MIN_INLIERS : Option Nat)
    (matcher : List D → List D → List MatchPair) (pt : K → P) (kp0 : K)
    (template test : KeypointSet K D) (MIN_MATCHES : Nat) :
    build_bounding_box findHomography warp img1 src_pts dst_pts MIN_INLIERS = none ∧
    get_matching_boundingbox matcher findHomography warp pt kp0 template test
      MIN_MATCHES MIN_INLIERS = none := by
  constructor
  · exact build_bounding_box_none_of_no_homography _ _ _ _ _ _ (hM _ _)
  · by_cases h : MIN_MATCHES ≤ (matcher template.descriptors test.descriptors).length
    · simp only [get_matching_boundingbox, if_pos h]
      exact build_bounding_box_none_of_no_homography _ _ _ _ _ _ (hM _ _)
    · simp only [get_matching_boundingbox, if_neg h]

/-- A brute-force matcher stub returning `n` matches, all pairing index 0
with index 0 (concrete instantiation for witnesses). -/
def constMatcher (n : Nat) : List Unit → List Unit → List MatchPair :=
  fun _ _ => List.replicate n ⟨0, 0⟩

/-- A homography-estimator stub returning transform `m` and an all-inlier
mask of `n` entries (concrete instantiation for witnesses). -/
def constHomography (m : Option Unit) (n : Nat) :
    List Unit → List Unit → Option Unit × List Bool :=
  fun _ _ => (m, List.replicate n true)

/-- A perspective warp stub that leaves corners unchanged. -/
def idWarp : Unit → Int × Int → Int × Int := fun _ p => p

/-- A keypoint set over trivial payloads with the given image shape. -/
def unitKS (r c : Nat) : KeypointSet Unit Unit := ⟨⟨r, c⟩, [], []⟩

/-- Closed witness for `no_homography_reports_no_match`: an estimator that
always fails yields no match through both entry points. -/
theorem no_homography_reports_no_match_witness :
    build_bounding_box (constHomography none 5) idWarp ⟨101, 101⟩ [] []
        (some 10) = none ∧
    get_matching_boundingbox (constMatcher 12) (constHomography none 5) idWarp
      (fun _ => ()) () (unitKS 101 101) (unitKS 50 50) 10 (some 10) = none :=
  no_homography_reports_no_match (constHomography none 5) (fun _ _ => rfl)
    idWarp ⟨101, 101⟩ [] [] (some 10) (constMatcher 12) (fun _ => ()) ()
    (unitKS 101 101) (unitKS 50 50) 10

/-- C7 — threshold boundaries are inclusive.  A match count of exactly
`MIN_MATCHES` proceeds to homography estimation on the matched point pairs
while `MIN_MATCHES - 1` reports no match; an inlier count of exactly
`MIN_INLIERS` passes the inlier check (yielding the warped-corner quad when
a transform exists) while `MIN_INLIERS - 1` reports no match. -/
theorem threshold_boundaries_inclusive {K D P H : Type}
    (matcher : List D → List D → List MatchPair)
    (findHomography : List P → List P → Option H × List Bool)
    (warp : H → Int × Int → Int × Int) (pt : K → P) (kp0 : K)
    (template test : KeypointSet K D) (MIN_MATCHES : Nat) (MI : Option Nat)
    (img1 : Image) (src_pts dst_pts : List P) (MIN_INLIERS : Nat) (m : H) :
    ((matcher template.descriptors test.descriptors).length = MIN_MATCHES →
      get_matching_boundingbox matcher findHomography warp pt kp0 template test
          MIN_MATCHES MI =
        build_bounding_box findHomography warp template.image
          ((matcher template.descriptors test.descriptors).map fun mp =>
            pt ((template.keypoints.get? mp.queryIdx).getD kp0))
          ((matcher template.descriptors test.descriptors).map fun mp =>
            pt ((test.keypoints.get? mp.trainIdx).getD kp0)) MI) ∧
    (1 ≤ MIN_MATCHES →
      (matcher template.descriptors test.descriptors).length = MIN_MATCHES - 1 →
      get_matching_boundingbox matcher findHomography warp pt kp0 template test
        MIN_MATCHES MI = none) ∧
    ((findHomography src_pts dst_pts).2.count true = MIN_INLIERS →
      (findHomography src_pts dst_pts).1 = some m →
      build_bounding_box findHomography warp img1 src_pts dst_pts
          (some MIN_INLIERS) =
        some ⟨warp m (0, 0), warp m (0, (img1.rows : Int) - 1),
          warp m ((img1.cols : Int) - 1, (img1.rows : Int) - 1),
          warp m ((img1.cols : Int) - 1, 0)⟩) ∧
    (1 ≤ MIN_INLIERS →
      (findHomography src_pts dst_pts).2.count true = MIN_INLIERS - 1 →
      build_bounding_box findHomography warp img1 src_pts dst_pts
        (some MIN_INLIERS) = none) := by
  refine ⟨fun hlen => ?_, fun h1 hlen => ?_, fun hcount hM => ?_, fun h1 hcount => ?_⟩
  · simp only [get_matching_boundingbox, if_pos (le_of_eq hlen.symm)]
  · have hlt : ¬ MIN_MATCHES ≤ (matcher template.descriptors test.descriptors).length := by
      omega
    simp only [get_matching_boundingbox, if_neg hlt]
  · simp only [build_bounding_box, hcount, hM, le_refl]
    simp
  · have hlt : ¬ MIN_INLIERS ≤ (findHomography src_pts dst_pts).2.count true := by
      omega
    simp only [build_bounding_box, decide_eq_true_eq, if_neg hlt]

/-- Closed witness for `threshold_boundaries_inclusive` at `MIN_MATCHES = 10`
and `MIN_INLIERS = 10`: 10 matches proceed (here all the way to a quad),
9 matches report no match; a 10-inlier mask passes, a 9-inlier mask fails. -/
theorem threshold_boundaries_inclusive_witness :
    get_matching_boundingbox (constMatcher 10) (constHomography (some ()) 10)
        idWarp (fun _ => ()) () (unitKS 101 101) (unitKS 50 50) 10 (some 10) =
      some (rectQuad 0 0 100 100) ∧
    get_matching_boundingbox (constMatcher 9) (constHomography (some ()) 10)
      idWarp (fun _ => ()) () (unitKS 101 101) (unitKS 50 50) 10 (some 10) = none ∧
    build_bounding_box (constHomography (some ()) 10) idWarp ⟨101, 101⟩
        ([] : List Unit) [] (some 10) = some (rectQuad 0 0 100 100) ∧
    build_bounding_box (constHomography (some ()) 9) idWarp ⟨101, 101⟩
      ([] : List Unit) [] (some 10) = none := by
  refine ⟨?_, ?_, ?_, ?_⟩
  · exact ((threshold_boundaries_inclusive (constMatcher 10)
      (constHomography (some ()) 10) idWarp (fun _ => ()) () (unitKS 101 101)
      (unitKS 50 50) 10 (some 10) ⟨101, 101⟩ [] [] 10 ()).1 rfl).trans (by decide)
  · exact (threshold_boundaries_inclusive (constMatcher 9)
      (constHomography (some ()) 10) idWarp (fun _ => ()) () (unitKS 101 101)
      (unitKS 50 50) 10 (some 10) ⟨101, 101⟩ [] [] 10 ()).2.1 (by decide) (by decide)
  · exact ((threshold_boundaries_inclusive (constMatcher 10)
      (constHomography (some ()) 10) idWarp (fun _ => ()) () (unitKS 101 101)
      (unitKS 50 50) 10 (some 10) ⟨101, 101⟩ [] [] 10 ()).2.2.1 (by decide)
      (by decide)).trans (by decide)
  · exact (threshold_boundaries_inclusive (constMatcher 10)
      (constHomography (some ()) 9) idWarp (fun _ => ()) () (unitKS 101 101)
      (unitKS 50 50) 10 (some 10) ⟨101, 101⟩ [] [] 10 ()).2.2.2 (by decide)
      (by decide)

/-- C1 — in the detection loop, a candidate for a cluster is rejected exactly
when some previously accepted object's AABB intersects the candidate's AABB
in more than 50% of that prior object's AABB area (the prior detection's
area is the denominator); on acceptance the template loop stops for this
cluster (the result is the new object, independent of the remaining
templates), and on rejection it continues with the remaining templates. -/
theorem detect_objects_dedup_rule {K D P H : Type}
    (matcher : List D → List D → List MatchPair)
    (findHomography : List P → List P → Option H × List Bool)
    (warp : H → Int × Int → Int × Int) (pt : K → P) (kp0 : K)
    (detected_objects : List DetectedObject) (cluster template : KeypointSet K D)
    (label : String) (rest : List (KeypointSet K D × String)) (bb : Quad) :
    (verify_non_overlapping detected_objects ⟨label, bb⟩ = false ↔
      ∃ prior ∈ detected_objects,
        2 * compute_rectangle_intersection (vertices_to_AABB bb)
            (vertices_to_AABB prior.bounding_box) >
          compute_rectangle_area (vertices_to_AABB prior.bounding_box)) ∧
    (get_matching_boundingbox matcher findHomography warp pt kp0 template cluster
        10 (some 10) = some bb →
      verify_non_overlapping detected_objects ⟨label, bb⟩ = true →
      detect_cluster_templates matcher findHomography warp pt kp0
        detected_objects cluster ((template, label) :: rest) = some ⟨label, bb⟩) ∧
    (get_matching_boundingbox matcher findHomography warp pt kp0 template cluster
        10 (some 10) = some bb →
      verify_non_overlapping detected_objects ⟨label, bb⟩ = false →
      detect_cluster_templates matcher findHomography warp pt kp0
          detected_objects cluster ((template, label) :: rest) =
        detect_cluster_templates matcher findHomography warp pt kp0
          detected_objects cluster rest) := by
  refine ⟨?_, fun hbb hacc => ?_, fun hbb hrej => ?_⟩
  · simp only [verify_non_overlapping, List.all_eq_false, decide_eq_true_eq,
      List.all_eq_true, decide_eq_false_iff_not, not_le]
  · simp [detect_cluster_templates, hbb, hacc]
  · simp [detect_cluster_templates, hbb, hrej]

/-- Closed witness for `detect_objects_dedup_rule`: with no prior detections
the candidate is accepted and the template loop stops; with a fully
overlapping prior detection the same candidate is rejected and the loop
falls through to the (empty) remaining templates. -/
theorem detect_objects_dedup_rule_witness :
    detect_cluster_templates (constMatcher 10) (constHomography (some ()) 10)
        idWarp (fun _ => ()) () [] (unitKS 50 50)
        [(unitKS 101 101, "b")] = some ⟨"b", rectQuad 0 0 100 100⟩ ∧
    detect_cluster_templates (constMatcher 10) (constHomography (some ()) 10)
      idWarp (fun _ => ()) () [⟨"x", rectQuad 0 0 100 100⟩] (unitKS 50 50)
      [(unitKS 101 101, "b")] = none := by
  constructor
  · exact (detect_objects_dedup_rule (constMatcher 10)
      (constHomography (some ()) 10) idWarp (fun _ => ()) () [] (unitKS 50 50)
      (unitKS 101 101) "b" [] (rectQuad 0 0 100 100)).2.1 (by decide) (by decide)
  · exact ((detect_objects_dedup_rule (constMatcher 10)
      (constHomography (some ()) 10) idWarp (fun _ => ()) ()
      [⟨"x", rectQuad 0 0 100 100⟩] (unitKS 50 50) (unitKS 101 101) "b" []
      (rectQuad 0 0 100 100)).2.2 (by decide) (by decide)).trans rfl

/-- The overlap-dedup bookkeeping of `detect_objects` as a standalone fold:
each candidate is appended iff it passes `verify_non_overlapping` against
the objects accepted before it. -/
def dedup_fold (objs : List DetectedObject) : List DetectedObject :=
  objs.foldl
    (fun acc o => if verify_non_overlapping acc o then acc ++ [o] else acc) []

/-- Generalized invariant for `dedup_fold`: starting from an accepted prefix,
a suffix whose every element passes the overlap check against everything
before it is appended wholesale. -/
theorem dedup_fold_invariant (suf : List DetectedObject) :
    ∀ (pre : List DetectedObject),
    (∀ (i : Fin suf.length),
      verify_non_overlapping (pre ++ suf.take i) (suf.get i) = true) →
    suf.foldl
      (fun acc o => if verify_non_overlapping acc o then acc ++ [o] else acc)
      pre = pre ++ suf := by
  induction suf with
  | nil => intro pre _; simp
  | cons a rest ih =>
    intro pre h
    have h0 : verify_non_overlapping pre a = true := by
      have := h ⟨0, by simp⟩
      simp only [List.take_zero, List.append_nil, List.get] at this
      exact this
    simp only [List.foldl_cons, h0, if_pos]
    have hrest := ih (pre ++ [a]) ?_
    · rw [hrest, List.append_assoc]
      rfl
    · intro i
      have := h ⟨i.1 + 1, by simp only [List.length_cons]; exact Nat.succ_lt_succ i.2⟩
      simpa [List.append_assoc] using this

/-- C9 — overlap-dedup is idempotent: a list in which every element already
passes `verify_non_overlapping` against the elements before it (i.e. any
output of the greedy dedup) is returned unchanged by re-running the dedup
fold. -/
theorem dedup_fold_idempotent (objs : List DetectedObject)
    (h : ∀ (i : Fin objs.length),
      verify_non_overlapping (objs.take i) (objs.get i) = true) :
    dedup_fold objs = objs := by
  have := dedup_fold_invariant objs [] (by
    intro i
    have := h i
    simpa using this)
  simpa [dedup_fold] using this

/-- Closed witness for `dedup_fold_idempotent`: two disjoint detections
survive a re-run of the dedup fold unchanged. -/
theorem dedup_fold_idempotent_witness :
    dedup_fold [⟨"a", rectQuad 0 0 10 10⟩, ⟨"b", rectQuad 100 100 110 110⟩] =
      [⟨"a", rectQuad 0 0 10 10⟩, ⟨"b", rectQuad 100 100 110 110⟩] :=
  dedup_fold_idempotent
    [⟨"a", rectQuad 0 0 10 10⟩, ⟨"b", rectQuad 100 100 110 110⟩] (by decide)

/-- A fold whose step never changes the accumulator returns it unchanged. -/
theorem foldl_fixed {α β : Type} (f : α → β → α) (hf : ∀ a b, f a b = a) :
    ∀ (L : List β) (a : α), L.foldl f a = a := by
  intro L
  induction L with
  | nil => intro a; rfl
  | cons b rest ih =>
    intro a
    rw [List.foldl_cons, hf]
    exact ih a

/-- C5 counterexample — on a test image with an empty keypoint set,
`detect_objects` does not return an empty detection list: the cluster-count
computation `max(ms.labels_) + 1` raises on the empty label sequence (with
real sklearn, `estimate_bandwidth` already rejects the empty point list), so
the call propagates an error. -/
theorem detect_objects_empty_keypoints_errors :
    detect_objects (fun ps => ps.map fun _ => 0) (constMatcher 10)
        (constHomography (some ()) 10) idWarp (fun _ => ()) ()
        [unitKS 101 101] ["b"] ⟨50, 50⟩ ([] : List Unit) ([] : List Unit) =
      Except.error "max() arg is an empty sequence" := rfl

/-- C5 (amended) — when clustering succeeds (the external labelling of the
test image's keypoints is non-empty) but the matcher never reaches the
`MIN_MATCHES = 10` threshold for any descriptor pair, `detect_objects`
returns an empty detection list rather than an error. -/
theorem detect_objects_unmatched_returns_empty {K D P H : Type}
    (msLabels : List P → List Nat) (matcher : List D → List D → List MatchPair)
    (findHomography : List P → List P → Option H × List Bool)
    (warp : H → Int × Int → Int × Int) (pt : K → P) (kp0 : K)
    (templates : List (KeypointSet K D)) (lbls : List String)
    (target_image : Image) (targetKP : List K) (targetDS : List D)
    (hcl : msLabels (targetKP.map pt) ≠ [])
    (hm : ∀ a b, (matcher a b).length < 10) :
    detect_objects msLabels matcher findHomography warp pt kp0 templates lbls
      target_image targetKP targetDS = Except.ok [] := by
  obtain ⟨l, ls, heq⟩ : ∃ l ls, msLabels (targetKP.map pt) = l :: ls := by
    cases hh : msLabels (targetKP.map pt) with
    | nil => exact absurd hh hcl
    | cons l ls => exact ⟨l, ls, rfl⟩
  have hnone : ∀ (tls : List (KeypointSet K D × String))
      (det : List DetectedObject) (cluster : KeypointSet K D),
      detect_cluster_templates matcher findHomography warp pt kp0 det cluster
        tls = none := by
    intro tls
    induction tls with
    | nil => intro det cluster; rfl
    | cons tl rest ih =>
      intro det cluster
      obtain ⟨template, label⟩ := tl
      have hlt : ¬ (10 ≤ (matcher template.descriptors cluster.descriptors).length) := by
        have := hm template.descriptors cluster.descriptors
        omega
      simp only [detect_cluster_templates, get_matching_boundingbox, if_neg hlt]
      exact ih det cluster
  have hfold := foldl_fixed
    (fun (detected_objects : List DetectedObject) (kd : List K × List D) =>
      match detect_cluster_templates matcher findHomography warp pt kp0
          detected_objects ⟨target_image, kd.1, kd.2⟩ (templates.zip lbls) with
      | some o => detected_objects ++ [o]
      | none => detected_objects)
    (fun det kd => by simp only [hnone])
  simp only [detect_objects, meanshift_keypoint_clusters,
    meanshift_keypoint_labels, heq, Except.bind]
  exact congrArg Except.ok (hfold _ [])

/-- Closed witness for `detect_objects_unmatched_returns_empty`: one
keypoint, one cluster, a matcher producing 9 matches everywhere. -/
theorem detect_objects_unmatched_returns_empty_witness :
    detect_objects (fun ps => ps.map fun _ => 0) (constMatcher 9)
        (constHomography (some ()) 10) idWarp (fun _ => ()) ()
        [unitKS 101 101] ["b"] ⟨50, 50⟩ [()] ([()] : List Unit) =
      Except.ok [] :=
  detect_objects_unmatched_returns_empty (fun ps => ps.map fun _ => 0)
    (constMatcher 9) (constHomography (some ()) 10) idWarp (fun _ => ()) ()
    [unitKS 101 101] ["b"] ⟨50, 50⟩ [()] [()] (by decide)
    (fun a b => by simp [constMatcher])

/-- The seed of a `Nat.max` fold bounds nothing above the fold's result. -/
theorem le_foldl_max : ∀ (xs : List Nat) (a : Nat), a ≤ xs.foldl Nat.max a := by
  intro xs
  induction xs with
  | nil => intro a; exact Nat.le_refl a
  | cons b rest ih =>
    intro a
    exact le_trans (Nat.le_max_left a b) (ih (Nat.max a b))

/-- Every member of the list is bounded by the `Nat.max` fold (Python's
`max` over a non-empty sequence). -/
theorem mem_le_foldl_max : ∀ (xs : List Nat) (a x : Nat), x ∈ xs →
    x ≤ xs.foldl Nat.max a := by
  intro xs
  induction xs with
  | nil => intro a x hx; cases hx
  | cons b rest ih =>
    intro a x hx
    rcases List.mem_cons.mp hx with rfl | hx
    · exact le_trans (Nat.le_max_right a x) (le_foldl_max rest (Nat.max a x))
    · exact ih (Nat.max a b) x hx

/-- Membership in a cluster's index list is exactly carrying that cluster's
label. -/
theorem mem_clusterIndices {labels : List Nat} {i j : Nat} :
    j ∈ clusterIndices labels i ↔ j < labels.length ∧ labels.getD j 0 = i := by
  simp [clusterIndices, List.mem_filter, List.mem_range]

/-- Cluster index lists are strictly increasing: the sub-selection preserves
the original relative order. -/
theorem clusterIndices_sorted (labels : List Nat) (i : Nat) :
    (clusterIndices labels i).Pairwise (· < ·) :=
  (List.pairwise_lt_range _).filter _

/-- Each index occurs in a given cluster's index list zero or one times,
according to its label. -/
theorem count_clusterIndices (labels : List Nat) (i j : Nat) :
    (clusterIndices labels i).count j =
      if j < labels.length ∧ labels.getD j 0 = i then 1 else 0 := by
  by_cases h : j < labels.length ∧ labels.getD j 0 = i
  · rw [if_pos h]
    exact List.count_eq_one_of_mem ((List.nodup_range _).filter _)
      (mem_clusterIndices.mpr h)
  · rw [if_neg h]
    exact List.count_eq_zero_of_not_mem fun hmem => h (mem_clusterIndices.mp hmem)

/-- Summing the indicator of a fixed value over `range n` gives one when the
value lies below `n`. -/
theorem sum_range_indicator (c : Nat) : ∀ n, c < n →
    ((List.range n).map fun i => if c = i then 1 else 0).sum = 1 := by
  intro n
  induction n with
  | zero => intro h; omega
  | succ n ih =>
    intro hc
    rw [List.range_succ, List.map_append, List.sum_append]
    by_cases h : c < n
    · rw [ih h]
      have hne : c ≠ n := by omega
      simp [hne]
    · have hcn : c = n := by omega
      have hz : ((List.range n).map fun i => if c = i then 1 else 0).sum = 0 := by
        refine List.sum_eq_zero ?_
        intro x hx
        obtain ⟨i, hi, rfl⟩ := List.mem_map.mp hx
        have : c ≠ i := by
          have := List.mem_range.mp hi
          omega
        simp [this]
      subst hcn
      simp [hz]

/-- `select` retrieves, at position `k`, the original element at the `k`-th
selected index (numpy fancy indexing, for in-range index lists). -/
theorem select_get? {α : Type} : ∀ (idxs : List Nat) (xs : List α),
    (∀ j ∈ idxs, j < xs.length) → ∀ k,
    (select xs idxs).get? k = (idxs.get? k).bind xs.get? := by
  intro idxs
  induction idxs with
  | nil => intro xs h k; rfl
  | cons j rest ih =>
    intro xs h k
    have hj : j < xs.length := h j (List.mem_cons_self j rest)
    have hx : xs.get? j = some (xs.get ⟨j, hj⟩) := List.get?_eq_get hj
    cases k with
    | zero =>
      simp only [select, List.filterMap_cons, hx, List.get?, Option.some_bind]
    | succ k =>
      simp only [select, List.filterMap_cons, hx, List.get?]
      exact ih xs (fun j' hj' => h j' (List.mem_cons_of_mem j hj')) k

/-- C3 — for every non-empty keypoint set (the external mean-shift labelling
assigning one label per point, descriptors index-aligned with keypoints),
`meanshift_keypoint_clusters` succeeds and its clusters partition the
keypoint indices completely and disjointly: every keypoint index occurs in
exactly one cluster's index list; each cluster's index list is strictly
increasing (original relative order preserved); and the `k`-th keypoint and
`k`-th descriptor of cluster `i` are the original keypoint and descriptor at
the same original index. -/
theorem meanshift_clusters_partition {K D P : Type}
    (msLabels : List P → List Nat) (pt : K → P) (kps : List K) (dss : List D)
    (hne : kps ≠ [])
    (hlab : (msLabels (kps.map pt)).length = kps.length)
    (hdss : dss.length = kps.length) :
    ∃ kpc dsc,
      meanshift_keypoint_clusters msLabels pt kps dss = Except.ok (kpc, dsc) ∧
      (∀ j, j < kps.length →
        (((List.range kpc.length).map
            (clusterIndices (msLabels (kps.map pt)))).flatten).count j = 1) ∧
      (∀ i, (clusterIndices (msLabels (kps.map pt)) i).Pairwise (· < ·)) ∧
      (∀ i k idx,
        (clusterIndices (msLabels (kps.map pt)) i).get? k = some idx →
        (kpc.get? i).bind (fun c => c.get? k) = kps.get? idx ∧
        (dsc.get? i).bind (fun c => c.get? k) = dss.get? idx) := by
  obtain ⟨l, ls, heq⟩ : ∃ l ls, msLabels (kps.map pt) = l :: ls := by
    cases hh : msLabels (kps.map pt) with
    | nil =>
      rw [hh] at hlab
      have hz : kps.length = 0 := by simpa using hlab.symm
      exact absurd (List.length_eq_zero.mp hz) hne
    | cons l ls => exact ⟨l, ls, rfl⟩
  have hlab' : (l :: ls).length = kps.length := heq ▸ hlab
  have hle : ∀ x ∈ l :: ls, x ≤ ls.foldl Nat.max l := by
    intro x hx
    rcases List.mem_cons.mp hx with rfl | hx
    · exact le_foldl_max ls x
    · exact mem_le_foldl_max ls l x hx
  have hok : meanshift_keypoint_clusters msLabels pt kps dss =
      Except.ok
        ((List.range (ls.foldl Nat.max l + 1)).map fun i =>
          select kps (clusterIndices (l :: ls) i),
         (List.range (ls.foldl Nat.max l + 1)).map fun i =>
          select dss (clusterIndices (l :: ls) i)) := by
    simp only [meanshift_keypoint_clusters, meanshift_keypoint_labels, heq]
    rfl
  rw [heq]
  refine ⟨_, _, hok, ?_, fun i => clusterIndices_sorted _ i, ?_⟩
  · intro j hj
    have hj' : j < (l :: ls).length := by omega
    have hlt : (l :: ls).getD j 0 < ls.foldl Nat.max l + 1 := by
      have hmem : (l :: ls).getD j 0 ∈ l :: ls := by
        rw [List.getD_eq_getElem _ _ hj']
        exact List.getElem_mem hj'
      have := hle _ hmem
      omega
    simp only [List.length_map, List.length_range]
    rw [List.count_flatten, List.map_map]
    have hcnt : ∀ i ∈ List.range (ls.foldl Nat.max l + 1),
        (List.count j ∘ clusterIndices (l :: ls)) i =
          if (l :: ls).getD j 0 = i then 1 else 0 := by
      intro i _
      simp only [Function.comp]
      rw [count_clusterIndices]
      by_cases hgi : (l :: ls).getD j 0 = i
      · rw [if_pos ⟨hj', hgi⟩, if_pos hgi]
      · rw [if_neg fun hc => hgi hc.2, if_neg hgi]
    rw [List.map_congr_left hcnt]
    exact sum_range_indicator _ _ hlt
  · intro i k idx hget
    have hidx := mem_clusterIndices.mp (List.get?_mem hget)
    have hi_lt : i < ls.foldl Nat.max l + 1 := by
      have hmem : (l :: ls).getD idx 0 ∈ l :: ls := by
        rw [List.getD_eq_getElem _ _ hidx.1]
        exact List.getElem_mem hidx.1
      have := hle _ hmem
      omega
    have hbound : ∀ m, m = kps.length → ∀ j' ∈ clusterIndices (l :: ls) i, j' < m := by
      intro m hm j' hj'
      have := (mem_clusterIndices.mp hj').1
      omega
    constructor
    · rw [List.get?_map, List.get?_range hi_lt, Option.map_some', Option.some_bind,
        select_get? _ kps (hbound _ rfl) k, hget, Option.some_bind]
    · rw [List.get?_map, List.get?_range hi_lt, Option.map_some', Option.some_bind,
        select_get? _ dss (hbound _ hdss) k, hget, Option.some_bind]

/-- Closed witness for `meanshift_clusters_partition`: two keypoints labelled
into one cluster. -/
theorem meanshift_clusters_partition_witness :
    ∃ kpc dsc,
      meanshift_keypoint_clusters (fun ps => ps.map fun _ => 0) (fun _ => ())
          [(), ()] ([(), ()] : List Unit) = Except.ok (kpc, dsc) ∧
      (∀ j, j < ([(), ()] : List Unit).length →
        (((List.range kpc.length).map
            (clusterIndices (([(), ()] : List Unit).map fun _ => 0))).flatten).count j = 1) ∧
      (∀ i, (clusterIndices (([(), ()] : List Unit).map fun _ => 0) i).Pairwise (· < ·)) ∧
      (∀ i k idx,
        (clusterIndices (([(), ()] : List Unit).map fun _ => 0) i).get? k = some idx →
        (kpc.get? i).bind (fun c => c.get? k) = ([(), ()] : List Unit).get? idx ∧
        (dsc.get? i).bind (fun c => c.get? k) = ([(), ()] : List Unit).get? idx) :=
  meanshift_clusters_partition (fun ps => ps.map fun _ => 0) (fun _ => ())
    [(), ()] [(), ()] (by decide) (by decide) (by decide)

/-- First-occurrence-order deduplication with an explicit seen-set
accumulator (pandas `Series.unique` keeps the first occurrence of each
value, in order). -/
def uniqueAux : List String → List String → List String
  | [], _ => []
  | x :: xs, seen =>
    if x ∈ seen then uniqueAux xs seen else x :: uniqueAux xs (x :: seen)

/-- `metadata["image_file"].unique()`: the distinct image files in
first-occurrence order. -/
def uniqueImages (l : List String) : List String :=
  uniqueAux l []

/-- The four counters accumulated by `validation.study_matches`. -/
structure StudyCounts where
  tp : Nat
  ap : Nat
  fp : Nat
  ic : Nat
deriving DecidableEq, Repr

/-- One image's contribution to the `study_matches` counters: its metadata
rows are the rows with its `image_file`; the detector output for the image
is validated against them (`np.sum` of a boolean list is its `true` count). -/
def imageTallies (detect : String → List DetectedObject)
    (metadata : List MetaRow) (image : String) : StudyCounts :=
  let image_metadata := metadata.filter fun r => r.image_file == image
  let correct_matches := validate_detected_objects image_metadata (detect image)
  ⟨correct_matches.count true, image_metadata.length,
    correct_matches.length - correct_matches.count true, 1⟩

/-- The counter-accumulating loop of `validation.study_matches` over the
unique image files. -/
def studyCounts (detect : String → List DetectedObject)
    (metadata : List MetaRow) : StudyCounts :=
  (uniqueImages (metadata.map fun r => r.image_file)).foldl
    (fun acc image =>
      let t := imageTallies detect metadata image
      ⟨acc.tp + t.tp, acc.ap + t.ap, acc.fp + t.fp, acc.ic + t.ic⟩)
    ⟨0, 0, 0, 0⟩

/-- Python integer true division: raises `ZeroDivisionError` on a zero
denominator; otherwise the exact quotient (the aggregate quotients are
embedded as exact rationals). -/
def pydiv (a b : Nat) : Except String ℚ :=
  if b = 0 then Except.error "division by zero"
  else Except.ok ((a : ℚ) / (b : ℚ))

/-- The summary record returned by `validation.study_matches` (a pandas
Series with keys `true_positives`, `actual_positives`,
`true_positive_ratio` — here `true_positive_rate` — `false_positives`,
`false_positives_per_image`, `image_count`). -/
structure MatchSummary where
  true_positives : Nat
  actual_positives : Nat
  true_positive_rate : ℚ
  false_positives : Nat
  false_positives_per_image : ℚ
  image_count : Nat
deriving DecidableEq, Repr

/-- `validation.study_matches`: accumulate the per-image tallies over the
unique image files, then form the summary; the two divisions run in source
order, so an empty dataset raises at `true_positives / actual_positives`. -/
def study_matches (detect : String → List DetectedObject)
    (metadata : List MetaRow) : Except String MatchSummary := do
  let c := studyCounts detect metadata
  let tpr ← pydiv c.tp c.ap
  let fppi ← pydiv c.fp c.ic
  Except.ok ⟨c.tp, c.ap, tpr, c.fp, fppi, c.ic⟩

/-- Summing one per element counts the elements. -/
theorem sum_map_one {α : Type} (l : List α) :
    (l.map fun _ => (1 : Nat)).sum = l.length := by
  induction l with
  | nil => rfl
  | cons a t ih =>
    simp only [List.map_cons, List.sum_cons, List.length_cons, ih]
    omega

/-- The `study_matches` counter loop equals componentwise sums of the
per-image tallies. -/
theorem studyCounts_foldl (detect : String → List DetectedObject)
    (metadata : List MetaRow) :
    ∀ (imgs : List String) (a : StudyCounts),
      imgs.foldl (fun acc image =>
        let t := imageTallies detect metadata image
        ⟨acc.tp + t.tp, acc.ap + t.ap, acc.fp + t.fp, acc.ic + t.ic⟩) a =
      ⟨a.tp + (imgs.map fun im => (imageTallies detect metadata im).tp).sum,
       a.ap + (imgs.map fun im => (imageTallies detect metadata im).ap).sum,
       a.fp + (imgs.map fun im => (imageTallies detect metadata im).fp).sum,
       a.ic + (imgs.map fun im => (imageTallies detect metadata im).ic).sum⟩ := by
  intro imgs
  induction imgs with
  | nil => intro a; simp
  | cons im rest ih =>
    intro a
    rw [List.foldl_cons, ih]
    simp only [List.map_cons, List.sum_cons, StudyCounts.mk.injEq]
    omega

/-- Ground truth for the two-image aggregation scenario: image `A` has two
rows, image `B` one row, all of brand `b`. -/
def scenarioMeta : List MetaRow :=
  [⟨"b", "A", 0, 0, 100, 100⟩, ⟨"b", "A", 1000, 1000, 1100, 1100⟩,
   ⟨"b", "B", 0, 0, 100, 100⟩]

/-- Detector for the scenario: one correct detection on image `A`; one
correct and one spurious detection on image `B`. -/
def scenarioDetect : String → List DetectedObject := fun image =>
  if image = "A" then [⟨"b", rectQuad 0 0 100 100⟩]
  else [⟨"b", rectQuad 0 0 100 100⟩, ⟨"b", rectQuad 5000 5000 5100 5100⟩]

/-- C4 — `study_matches` sums, across the unique images, the true positives
(detections validated correct), the actual positives (ground-truth row
count) and the false positives (detections not validated), and counts the
images; and on the two-image scenario (A: 2 rows, 1 correct detection;
B: 1 row, 2 detections of which 1 correct) it returns
`true_positives = 2`, `actual_positives = 3`, rate `2/3`,
`false_positives = 1`, `false_positives_per_image = 1/2`,
`image_count = 2`. -/
theorem study_matches_aggregates (detect : String → List DetectedObject)
    (metadata : List MetaRow) :
    studyCounts detect metadata =
      ⟨((uniqueImages (metadata.map fun r => r.image_file)).map fun im =>
          (imageTallies detect metadata im).tp).sum,
       ((uniqueImages (metadata.map fun r => r.image_file)).map fun im =>
          (imageTallies detect metadata im).ap).sum,
       ((uniqueImages (metadata.map fun r => r.image_file)).map fun im =>
          (imageTallies detect metadata im).fp).sum,
       (uniqueImages (metadata.map fun r => r.image_file)).length⟩ ∧
    study_matches scenarioDetect scenarioMeta =
      Except.ok ⟨2, 3, 2/3, 1, 1/2, 2⟩ := by
  constructor
  · rw [studyCounts, studyCounts_foldl]
    simp only [Nat.zero_add, StudyCounts.mk.injEq]
    refine ⟨trivial, trivial, trivial, ?_⟩
    rw [List.map_congr_left (fun im _ => (rfl :
      (imageTallies detect metadata im).ic = 1))]
    exact sum_map_one _
  · have hc : studyCounts scenarioDetect scenarioMeta = ⟨2, 3, 1, 2⟩ := by decide
    simp only [study_matches, hc, pydiv]
    norm_num
    rfl

/-- C8 — on an empty dataset (zero actual positives or zero images) the
aggregation fails with a division-by-zero error signalled to the caller; it
never returns a summary with undefined quotients. -/
theorem study_matches_empty_dataset_errors
    (detect : String → List DetectedObject) (metadata : List MetaRow)
    (h : (studyCounts detect metadata).ap = 0 ∨
      (studyCounts detect metadata).ic = 0) :
    study_matches detect metadata = Except.error "division by zero" := by
  rcases h with h | h
  · simp only [study_matches, pydiv, h, if_pos]
    rfl
  · by_cases hap : (studyCounts detect metadata).ap = 0
    · simp only [study_matches, pydiv, hap, if_pos]
      rfl
    · simp only [study_matches, pydiv, hap, h, if_neg, if_pos]
      rfl

/-- Closed witness for `study_matches_empty_dataset_errors`: the empty
metadata table has zero actual positives and the aggregation errors. -/
theorem study_matches_empty_dataset_errors_witness :
    (studyCounts (fun _ => []) []).ap = 0 ∧
    study_matches (fun _ => []) [] = Except.error "division by zero" :=
  ⟨rfl, study_matches_empty_dataset_errors (fun _ => []) [] (Or.inl rfl)⟩
